import Mathlib

/-!
Verification of the MB-script repository (a TypeScript price-monitoring
service) against its natural-language specification.

Modelling conventions for the shallow embedding:
* JavaScript strings are modelled as `List Char` (abbreviated `Str`);
  `trim() === ''` becomes "every character is whitespace".
* JavaScript numbers are modelled as `ℚ`; a value that may be `NaN` is
  modelled as `Option ℚ` with `none` standing for `NaN`.  The result of a
  division that may produce `Infinity` or `NaN` is modelled by the
  inductive type `JsNum`.
* `parseFloat` is modelled by `jsParseFloat` (whitespace skip, optional
  sign, decimal digits, optional fraction and exponent; the special
  string `Infinity` is not modelled).
* Asynchronous effects (HTTP, Telegram, timers) are modelled by passing
  the outcome of each external call explicitly: an operation under retry
  becomes a function from the attempt index to its outcome, the paginated
  catalog becomes a function from the page number to the page response,
  and in-place array mutation becomes an explicit output field.
* Thrown exceptions become `Except` values.
-/

namespace MB

/-- JavaScript strings as lists of characters. -/
abbrev Str := List Char

/-- Convenience conversion from Lean string literals to `Str`. -/
def str (s : String) : Str := s.toList

/-- Models `s.trim() === ''` (also covers the falsiness test `!s`, since the
empty string trims to the empty string): every character is whitespace. -/
def strBlank (s : Str) : Bool := s.all Char.isWhitespace

/-- Models `String.prototype.trim`: drop whitespace from both ends. -/
def jsTrim (s : Str) : Str :=
  ((s.dropWhile Char.isWhitespace).reverse.dropWhile Char.isWhitespace).reverse

/-- Models `String.prototype.toLowerCase` (ASCII case mapping). -/
def lowerStr (s : Str) : Str := s.map Char.toLower

/-- Helper of `occursIn`: does `needle` occur at the very front of `hay`? -/
def matchesFront : Str → Str → Bool
  | [], _ => true
  | _ :: _, [] => false
  | c :: cs, d :: ds => c == d && matchesFront cs ds

/-- Models `hay.includes(needle)`: `needle` occurs contiguously in `hay`. -/
def occursIn (needle : Str) : Str → Bool
  | [] => matchesFront needle []
  | d :: ds => matchesFront needle (d :: ds) || occursIn needle ds

/-- Reads a maximal run of decimal digits; returns the value read, the
number of digits read and the unread remainder. -/
def parseDigits : Str → ℕ × ℕ × Str
  | [] => (0, 0, [])
  | c :: cs =>
    if c.isDigit then
      let (v, n, r) := parseDigits cs
      ((c.toNat - 48) * 10 ^ n + v, n + 1, r)
    else (0, 0, c :: cs)

/-- Reads an optional exponent sign and digits; models the exponent part of
`parseFloat` (an `e` with no digits after it contributes exponent 0,
because `parseFloat` then stops at the longest valid numeric prefix). -/
def parseExpPart (s : Str) : ℤ :=
  let (sg, s2) : ℤ × Str :=
    match s with
    | '-' :: r => (-1, r)
    | '+' :: r => (1, r)
    | r => (1, r)
  let (v, n, _) := parseDigits s2
  if n = 0 then 0 else sg * (v : ℤ)

/-- Models `parseFloat`: skip leading whitespace, optional sign, integer
digits, optional fraction, optional exponent.  Returns `none` for `NaN`
(no digit could be read). -/
def jsParseFloat (s : Str) : Option ℚ :=
  let s1 := s.dropWhile Char.isWhitespace
  let (sgn, s2) : ℚ × Str :=
    match s1 with
    | '-' :: r => (-1, r)
    | '+' :: r => (1, r)
    | r => (1, r)
  let (ip, ic, s3) := parseDigits s2
  let (fp, fc, s4) :=
    match s3 with
    | '.' :: r => parseDigits r
    | r => (0, 0, r)
  if ic = 0 ∧ fc = 0 then none
  else
    let ex : ℤ :=
      match s4 with
      | 'e' :: r => parseExpPart r
      | 'E' :: r => parseExpPart r
      | _ => 0
    some (sgn * ((ip : ℚ) + (fp : ℚ) / 10 ^ fc) * (10 : ℚ) ^ ex)

/-- The result of a JavaScript arithmetic expression that may leave the
finite range: a finite number, `Infinity`, `-Infinity` or `NaN`. -/
inductive JsNum where
  | num : ℚ → JsNum
  | inf : JsNum
  | negInf : JsNum
  | nan : JsNum
deriving DecidableEq, Repr

/-- JavaScript division `a / b` on finite operands. -/
def jsDiv (a b : ℚ) : JsNum :=
  if b = 0 then
    if 0 < a then .inf else if a < 0 then .negInf else .nan
  else .num (a / b)

/-- `ProductSpecifications` from `shared/types`: the fields set by
`HealthKartTransformService.extractSpecifications`.  `proteinPerServing`
stays a string, exactly as in the source. -/
structure ProductSpecifications where
  weight : Str
  servingSize : Str
  proteinPerServing : Str
  proteinPercentage : ℚ
  servingsPerContainer : ℚ
  flavor : Str
  pricePerKg : ℚ
deriving DecidableEq, Repr

/-- The `Product` domain entity (`domain/entities/Product`).  The
`lastUpdated : Date` field is omitted: no claim and no modelled operation
reads it. -/
structure Product where
  id : Str
  name : Str
  brand : Str
  category : Str
  originalPrice : ℚ
  currentPrice : ℚ
  discountPercentage : ℚ
  rating : ℚ
  reviewCount : ℚ
  isInStock : Bool
  url : Str
  specifications : ProductSpecifications
deriving DecidableEq, Repr

/-- `Product.create`: the `validate` checks of the factory method, in
source order; a `Product` instance is returned only when they all pass.
`!data.id || data.id.trim() === ''` is modelled by `strBlank` (the empty
string is the only falsy string, and it is trim-blank). -/
def Product.create (data : Product) : Except String Product :=
  if strBlank data.id then .error "Product ID is required"
  else if strBlank data.name then .error "Product name is required"
  else if strBlank data.brand then .error "Product brand is required"
  else if data.originalPrice < 0 then .error "Original price cannot be negative"
  else if data.currentPrice < 0 then .error "Current price cannot be negative"
  else if data.discountPercentage < 0 ∨ 100 < data.discountPercentage then
    .error "Discount percentage must be between 0 and 100"
  else if data.rating < 0 ∨ 5 < data.rating then
    .error "Rating must be between 0 and 5"
  else if data.reviewCount < 0 then .error "Review count cannot be negative"
  else .ok data

/-- `Product.getPricePerGramProtein`: parse the protein string, return 0
on `NaN` or zero servings, otherwise divide the current price by the
total protein (a JavaScript division, which yields `Infinity` or `NaN`
when the total protein is 0). -/
def Product.getPricePerGramProtein (p : Product) : JsNum :=
  match jsParseFloat p.specifications.proteinPerServing with
  | none => .num 0
  | some proteinPerServing =>
    if p.specifications.servingsPerContainer = 0 then .num 0
    else jsDiv p.currentPrice (proteinPerServing * p.specifications.servingsPerContainer)

/-- `Product.hasSignificantDiscount`. -/
def Product.hasSignificantDiscount (p : Product) (threshold : ℚ) : Bool :=
  decide (threshold ≤ p.discountPercentage)

/-- `Product.hasGoodRating`. -/
def Product.hasGoodRating (p : Product) (minRating : ℚ) : Bool :=
  decide (minRating ≤ p.rating)

/-- `Product.hasSufficientReviews`. -/
def Product.hasSufficientReviews (p : Product) (minReviews : ℚ) : Bool :=
  decide (minReviews ≤ p.reviewCount)

/-- The criteria argument of `Product.meetsAlertCriteria`; optional fields
are `Option`, `none` standing for `undefined`. -/
structure AlertCriteria where
  minDiscount : ℚ
  maxPrice : Option ℚ
  minRating : Option ℚ
  minReviews : Option ℚ
  preferredBrands : Option (List Str)
deriving DecidableEq, Repr

/-- `Product.meetsAlertCriteria`, guard for guard.  Each optional numeric
field is tested with JavaScript truthiness (`criteria.maxPrice && ...`),
so `undefined` and `0` both skip the corresponding check. -/
def Product.meetsAlertCriteria (p : Product) (criteria : AlertCriteria) : Bool :=
  if !p.hasSignificantDiscount criteria.minDiscount then false
  else if (match criteria.maxPrice with
           | some m => decide (m ≠ 0) && decide (m < p.currentPrice)
           | none => false) then false
  else if (match criteria.minRating with
           | some r => decide (r ≠ 0) && !p.hasGoodRating r
           | none => false) then false
  else if (match criteria.minReviews with
           | some n => decide (n ≠ 0) && !p.hasSufficientReviews n
           | none => false) then false
  else if (match criteria.preferredBrands with
           | some brands =>
             decide (0 < brands.length) &&
               !(brands.any fun brand => occursIn (lowerStr brand) (lowerStr p.brand))
           | none => false) then false
  else if !p.isInStock then false
  else true

/-- The error classes of `shared/errors` that the retry logic can
observe.  `retryExhausted` carries the attempt count and the last
underlying error, as `RetryExhaustedError` does. -/
inductive JsError where
  | apiTimeout : JsError
  | productFetch : Option ℕ → JsError
  | telegramService : JsError
  | rateLimit : JsError
  | productProcessing : JsError
  | dataParsing : JsError
  | healthKartApi : JsError
  | retryExhausted : ℕ → JsError → JsError
  | generic : JsError
deriving DecidableEq, Repr

/-- Is the error a `RetryExhaustedError`? -/
def JsError.isRetryExhausted : JsError → Bool
  | .retryExhausted _ _ => true
  | _ => false

/-- `isNonRetryableError` from `apiUtils`: only a `ProductFetchError`
with a truthy 4xx status code is non-retryable; everything else,
timeouts, Telegram and rate-limit errors included, is retryable. -/
def isNonRetryableError : JsError → Bool
  | .productFetch statusCode =>
    match statusCode with
    | some c => if c ≠ 0 then decide (400 ≤ c) && decide (c < 500) else false
    | none => false
  | _ => false

/-- The attempt loop of `withRetry`.  `op i` is the outcome of the i-th
invocation of `fn` (0-based, as the `attempt` loop variable of the
source); `remaining` counts the attempts still allowed after the current
one.  Returns the final outcome together with the number of times the
operation was invoked.  When the last allowed attempt fails, the source
breaks out of the loop and throws `lastError` itself. -/
def retryLoop (op : ℕ → Except JsError α) : ℕ → ℕ → Except JsError α × ℕ
  | 0, attempt =>
    (match op attempt with
     | .ok v => .ok v
     | .error e => .error e, attempt + 1)
  | remaining + 1, attempt =>
    match op attempt with
    | .ok v => (.ok v, attempt + 1)
    | .error e =>
      if isNonRetryableError e then (.error e, attempt + 1)
      else retryLoop op remaining (attempt + 1)

/-- `withRetry` from `apiUtils`: run the loop for `maxRetries + 1`
attempts starting at attempt 0. -/
def withRetry (op : ℕ → Except JsError α) (maxRetries : ℕ) : Except JsError α × ℕ :=
  retryLoop op maxRetries 0

/-- One page of the HealthKart catalog response (`results` object):
exactly the fields `fetchAllCategoryProducts` reads. -/
structure HKPage (α : Type) where
  variants : List α
  total_variants : ℕ
  perPage : ℕ

/-- `Math.ceil(totalVariants / perPage)` for natural operands. -/
def ceilPages (total per : ℕ) : ℕ := (total + per - 1) / per

/-- The do-while loop of `fetchAllCategoryProducts`.  `server page` is
the (validated) response to the page-`page` request; `fuel` bounds the
number of iterations (the theorems supply enough fuel for the loop to
reach its own exit condition).  Returns the accumulated variants and the
number of page requests issued. -/
def fetchAllGo (server : ℕ → HKPage α) : ℕ → ℕ → List α → ℕ → List α × ℕ
  | 0, _, acc, reqs => (acc, reqs)
  | fuel + 1, page, acc, reqs =>
    let r := server page
    if r.variants.isEmpty then (acc, reqs + 1)
    else
      let acc2 := acc ++ r.variants
      let totalPages := ceilPages r.total_variants r.perPage
      if page + 1 ≤ totalPages then fetchAllGo server fuel (page + 1) acc2 (reqs + 1)
      else (acc2, reqs + 1)

/-- `fetchAllCategoryProducts`: start at page 1 with no products
accumulated. -/
def fetchAllCategoryProducts (server : ℕ → HKPage α) (fuel : ℕ) : List α × ℕ :=
  fetchAllGo server fuel 1 [] 0

/-- The variants of pages `first, first+1, ..., first+count-1`,
concatenated in order. -/
def concatPages (server : ℕ → HKPage α) (first count : ℕ) : List α :=
  (List.range' first count).flatMap fun p => (server p).variants

/-- Outcome of `TelegramService.sendDealAlerts`: the final contents of
the caller-supplied `products` array (the source sorts it in place via
`products.sort(...)`), the message text handed to `sendMessage`, and how
many times `sendMessage` was called. -/
structure SendAlertsResult where
  productsAfter : List Product
  message : Str
  sendCalls : ℕ

/-- `products.sort((a, b) => b.discountPercentage - a.discountPercentage)`:
a stable sort placing higher discounts first (`Array.prototype.sort` is
stable, and so is `List.insertionSort`). -/
def sortByDiscountDesc (products : List Product) : List Product :=
  products.insertionSort fun a b => b.discountPercentage ≤ a.discountPercentage

/-- The message-building loop of `sendDealAlerts`: concatenate the
formatted block of each product, incrementing `count`, and break once
`count > 5` — note that the test runs after the concatenation, so the
block that takes `count` to 6 is already in the message. -/
def alertLoop (fmt : Product → Str) : List Product → ℕ → Str → Str
  | [], _, message => message
  | p :: ps, count, message =>
    let message2 := message ++ fmt p
    let count2 := count + 1
    if 5 < count2 then message2 else alertLoop fmt ps count2 message2

/-- `TelegramService.sendDealAlerts`, parameterised by the private
formatter `formatDealAlert` (written `fmt`; its output is opaque text
whose contents no claim constrains).  The source sorts the caller's
array in place, builds one message in the loop, and calls `sendMessage`
exactly once with it. -/
def sendDealAlerts (fmt : Product → Str) (products : List Product) : SendAlertsResult :=
  let sortedProducts := sortByDiscountDesc products
  { productsAfter := sortedProducts
    message := alertLoop fmt sortedProducts 0 []
    sendCalls := 1 }

/-- A product attribute from the catalog response (`val`, `dis_nm`, `nm`;
the fields `valType`, `unt`, `do`, `mandatory` are never read by the
transform service and are omitted). -/
structure ProductAttribute where
  val : Str
  dis_nm : Str
  nm : Str
deriving DecidableEq, Repr

/-- A product group from the catalog response (only `values` is read). -/
structure ProductGroup where
  values : List ProductAttribute
deriving DecidableEq, Repr

/-- `HealthKartProduct`, the raw catalog item: the fields the transform
service reads.  Numeric fields that may be `NaN` are `Option ℚ` with
`none` for `NaN`; `spName`, `ttl_rtng`, `goal` and the remaining fields
are never read and are omitted. -/
structure RawProduct where
  id : ℤ
  nm : Str
  brName : Str
  catName : Str
  urlFragment : Str
  mrp : Option ℚ
  offer_pr : Option ℚ
  discount : Option ℚ
  rating : Option ℚ
  nrvw : Option ℚ
  oos : Bool
  ordrEnbld : Bool
  grps : List ProductGroup
deriving DecidableEq, Repr

/-- Decimal digit characters of `n`, accumulator style; `fuel ≥ n`
guarantees completion (division by 10 strictly shrinks the argument). -/
def natDigitsGo : ℕ → ℕ → List Char → List Char
  | _, 0, acc => acc
  | 0, _ + 1, acc => acc
  | fuel + 1, n + 1, acc =>
    natDigitsGo fuel ((n + 1) / 10) (Char.ofNat (48 + (n + 1) % 10) :: acc)

/-- `String(n)` for a natural number. -/
def natRepr (n : ℕ) : Str := if n = 0 then str "0" else natDigitsGo n n []

/-- `String(i)` for an integer (models the `String(healthKartProduct.id)`
conversion). -/
def intRepr (i : ℤ) : Str := if i < 0 then '-' :: natRepr i.natAbs else natRepr i.natAbs

/-- `sanitizeString`: trim (its non-string branch cannot arise here, the
modelled inputs are strings). -/
def sanitizeString (s : Str) : Str := jsTrim s

/-- `parseNumericValue` on a string: strip every character that is not a
digit or a dot, then `parseFloat`, with `NaN` mapped to 0. -/
def parseNumericValue (value : Str) : ℚ :=
  let cleanValue := value.filter fun c => c.isDigit || c == '.'
  match jsParseFloat cleanValue with
  | none => 0
  | some parsed => parsed

/-- `validatePrice`: throw on `NaN` or negative, otherwise round to two
decimal places (`Math.round(price * 100) / 100`, with `Math.round x =
⌊x + 1/2⌋`). -/
def validatePrice (price : Option ℚ) (fieldName : String) : Except String ℚ :=
  match price with
  | none => .error ("Invalid " ++ fieldName)
  | some q =>
    if q < 0 then .error ("Invalid " ++ fieldName)
    else .ok ((⌊q * 100 + 1 / 2⌋ : ℚ) / 100)

/-- `validatePercentage`: 0 for `NaN`, otherwise clamp into `[0, 100]`. -/
def validatePercentage (percentage : Option ℚ) : ℚ :=
  match percentage with
  | none => 0
  | some q => max 0 (min 100 q)

/-- `validateRating`: 0 for `NaN`, otherwise clamp into `[0, 5]`. -/
def validateRating (rating : Option ℚ) : ℚ :=
  match rating with
  | none => 0
  | some q => max 0 (min 5 q)

/-- `validateCount`: 0 for `NaN` or negative, otherwise floor. -/
def validateCount (count : Option ℚ) : ℚ :=
  match count with
  | none => 0
  | some q => if q < 0 then 0 else (⌊q⌋ : ℚ)

/-- `mapAttributeToSpec`: the switch on `attribute.nm`, then the two
fallback checks on the display name (which read the just-updated
specs). -/
def mapAttributeToSpec (attr : ProductAttribute) (specs : ProductSpecifications) :
    ProductSpecifications :=
  let key := attr.nm
  let value := attr.val
  let displayName := attr.dis_nm
  let s :=
    if key = str "gen-pro-siz" then { specs with weight := sanitizeString value }
    else if key = str "gen-pro-sev" then { specs with servingSize := sanitizeString value }
    else if key = str "sn-pro-sev" then { specs with proteinPerServing := sanitizeString value }
    else if key = str "gen-pro-prctn" then
      { specs with proteinPercentage := parseNumericValue value }
    else if key = str "gen-pro-ser-pck" then
      { specs with servingsPerContainer := parseNumericValue value }
    else if key = str "gen-sn-flv" then { specs with flavor := sanitizeString value }
    else if key = str "ppk-pro" then { specs with pricePerKg := parseNumericValue value }
    else specs
  let s2 :=
    if s.weight = [] ∧ occursIn (str "weight") (lowerStr displayName) then
      { s with weight := sanitizeString value }
    else s
  if s2.flavor = [] ∧ occursIn (str "flavour") (lowerStr displayName) then
    { s2 with flavor := sanitizeString value }
  else s2

/-- `postProcessSpecifications`: clamp the numeric fields and default the
empty string fields. -/
def postProcessSpecifications (specs : ProductSpecifications) : ProductSpecifications :=
  { weight := if specs.weight = [] then str "Unknown" else specs.weight
    servingSize := if specs.servingSize = [] then str "Unknown" else specs.servingSize
    proteinPerServing :=
      if specs.proteinPerServing = [] then str "0g" else specs.proteinPerServing
    proteinPercentage := max 0 (min 100 specs.proteinPercentage)
    servingsPerContainer := max 0 (⌊specs.servingsPerContainer⌋ : ℚ)
    flavor := if specs.flavor = [] then str "Unknown" else specs.flavor
    pricePerKg := max 0 specs.pricePerKg }

/-- `extractSpecifications`: fold every attribute of every group over the
empty initial specs, then post-process.  (The catch branch of the source
is unreachable in the model: nothing inside the loop throws.) -/
def extractSpecifications (groups : List ProductGroup) : ProductSpecifications :=
  let specs0 : ProductSpecifications :=
    { weight := [], servingSize := [], proteinPerServing := [], proteinPercentage := 0
      servingsPerContainer := 0, flavor := [], pricePerKg := 0 }
  let specs :=
    groups.foldl (fun sp g => g.values.foldl (fun sp a => mapAttributeToSpec a sp) sp) specs0
  postProcessSpecifications specs

/-- The URL base prepended to `urlFragment`. -/
def urlBase : Str := str "https://www.healthkart.com"

/-- `transformToProductInterface`: validate the required raw fields,
extract the specifications, and assemble the `Product` data. -/
def transformToProductInterface (raw : RawProduct) : Except String Product :=
  if raw.id ≤ 0 then .error "Invalid product ID"
  else if strBlank raw.nm then .error "Product name is required"
  else if strBlank raw.brName then .error "Brand name is required"
  else if strBlank raw.urlFragment then .error "URL fragment is required"
  else
    match validatePrice raw.mrp "originalPrice" with
    | .error msg => .error msg
    | .ok originalPrice =>
      match validatePrice raw.offer_pr "currentPrice" with
      | .error msg => .error msg
      | .ok currentPrice =>
        .ok
          { id := intRepr raw.id
            name := sanitizeString raw.nm
            brand := sanitizeString raw.brName
            category := sanitizeString raw.catName
            originalPrice := originalPrice
            currentPrice := currentPrice
            discountPercentage := validatePercentage raw.discount
            rating := validateRating raw.rating
            reviewCount := validateCount raw.nrvw
            isInStock := !raw.oos && raw.ordrEnbld
            url := urlBase ++ raw.urlFragment
            specifications := extractSpecifications raw.grps }

/-- `transformToProduct`: transform then run the `Product.create`
validation.  (The source re-wraps a failure in a `DataParsingError`; the
model keeps the inner message, callers only look at success.) -/
def transformToProduct (raw : RawProduct) : Except String Product :=
  (transformToProductInterface raw).bind Product.create

/-- `transformToProducts`: transform each raw product, skipping the ones
that fail. -/
def transformToProducts (raws : List RawProduct) : List Product :=
  raws.filterMap fun raw => (transformToProduct raw).toOption

/-- `ProductFilterConfig` from `apiConfig` (the fields
`filterQualifyingDeals` and the summaries read). -/
structure ProductFilterConfig where
  minDiscount : ℚ
  inStockOnly : Bool
  minReviews : ℚ
  minRating : ℚ
  maxPrice : ℚ
deriving DecidableEq, Repr

/-- The configuration slice `SendAlertUseCase.execute` reads. -/
structure UseCaseConfig where
  productFilter : ProductFilterConfig
  maxProductsInAlert : ℕ
deriving DecidableEq, Repr

/-- `ProductSummary` as built by `createProductSummaries`. -/
structure ProductSummary where
  name : Str
  brand : Str
  currentPrice : ℚ
  originalPrice : ℚ
  discountPercentage : ℚ
  rating : ℚ
  url : Str
deriving DecidableEq, Repr

/-- `AlertExecutionResult`. -/
structure AlertExecutionResult where
  totalProductsFetched : ℕ
  qualifyingDeals : ℕ
  telegramSent : Bool
  deals : List ProductSummary
deriving DecidableEq, Repr

/-- `SendAlertUseCase.filterQualifyingDeals`: every configured bound must
hold, and the stock check applies only when `inStockOnly` is set. -/
def filterQualifyingDeals (products : List Product) (config : ProductFilterConfig) :
    List Product :=
  products.filter fun product =>
    decide (config.minDiscount ≤ product.discountPercentage) &&
    decide (product.currentPrice ≤ config.maxPrice) &&
    decide (config.minRating ≤ product.rating) &&
    decide (config.minReviews ≤ product.reviewCount) &&
    (if config.inStockOnly then product.isInStock else true)

/-- `SendAlertUseCase.createProductSummaries`: take the first `maxCount`
products and project the summary fields. -/
def createProductSummaries (products : List Product) (maxCount : ℕ) : List ProductSummary :=
  (products.take maxCount).map fun product =>
    { name := product.name
      brand := product.brand
      currentPrice := product.currentPrice
      originalPrice := product.originalPrice
      discountPercentage := product.discountPercentage
      rating := product.rating
      url := product.url }

/-- `SendAlertUseCase.execute`, with the two external effects passed in
explicitly: `fetched` is what `fetchFilteredProducts` returned, and
`sendOutcome` is what `telegramService.sendMessage` would return (or
throw) if called.  The second component of the result counts how many
times `sendMessage` was actually called.  An empty fetch throws a
`ProductFetchError`; zero qualifying deals skips the notify stage and
reports `telegramSent := false` with zero send calls. -/
def executeModel (config : UseCaseConfig) (fetched : List RawProduct)
    (sendOutcome : Except JsError Bool) : Except JsError (AlertExecutionResult × ℕ) :=
  if fetched.isEmpty then .error (.productFetch none)
  else
    let qualifyingDeals := filterQualifyingDeals (transformToProducts fetched) config.productFilter
    let send : Except JsError (Bool × ℕ) :=
      if qualifyingDeals.isEmpty then .ok (false, 0)
      else
        match sendOutcome with
        | .ok success => .ok (success, 1)
        | .error _ => .error .telegramService
    match send with
    | .error e => .error e
    | .ok (telegramSent, sendCalls) =>
      .ok
        ({ totalProductsFetched := fetched.length
           qualifyingDeals := qualifyingDeals.length
           telegramSent := telegramSent
           deals := createProductSummaries qualifyingDeals config.maxProductsInAlert },
         sendCalls)

/-! ### Concrete inputs used by witnesses and counterexamples -/

/-- Specifications whose protein string parses to 0 with nonzero
servings. -/
def exSpecsZeroProtein : ProductSpecifications :=
  { weight := str "1kg", servingSize := str "30g", proteinPerServing := str "0g"
    proteinPercentage := 0, servingsPerContainer := 3, flavor := str "Chocolate"
    pricePerKg := 0 }

/-- A product whose protein-per-serving string parses to 0. -/
def exProductZeroProtein : Product :=
  { id := str "1", name := str "Whey 1kg", brand := str "MuscleBlaze"
    category := str "Protein", originalPrice := 400, currentPrice := 300
    discountPercentage := 25, rating := 4, reviewCount := 100, isInStock := true
    url := str "u", specifications := exSpecsZeroProtein }

/-- A product with an ordinary parsable protein string. -/
def exProductProtein25 : Product :=
  { exProductZeroProtein with
    currentPrice := 100
    specifications :=
      { exSpecsZeroProtein with proteinPerServing := str "25", servingsPerContainer := 2 } }

/-- Criteria with a present but zero `maxPrice` (falsy in JavaScript). -/
def exCriteriaMaxZero : AlertCriteria :=
  { minDiscount := 10, maxPrice := some 0, minRating := none, minReviews := none
    preferredBrands := none }

/-- Criteria with every optional field present and nonzero. -/
def exCriteriaFull : AlertCriteria :=
  { minDiscount := 10, maxPrice := some 500, minRating := some 3, minReviews := some 50
    preferredBrands := some [str "muscleblaze"] }

/-- An operation that fails with a retryable timeout twice, then
succeeds. -/
def exOpSucceedThird : ℕ → Except JsError ℕ :=
  fun i => if i < 2 then .error .apiTimeout else .ok 42

/-- An operation that always fails with a non-retryable 404 fetch
error. -/
def exOpForbidden : ℕ → Except JsError ℕ :=
  fun _ => .error (.productFetch (some 404))

/-- A catalog of 55 items served 24 per page: pages 1 and 2 are full,
page 3 holds the remaining 7 items. -/
def server55 : ℕ → HKPage ℕ := fun p =>
  if p = 1 then ⟨List.range' 1 24, 55, 24⟩
  else if p = 2 then ⟨List.range' 25 24, 55, 24⟩
  else if p = 3 then ⟨List.range' 49 7, 55, 24⟩
  else ⟨[], 55, 24⟩

/-- A small in-stock product with the given one-character id and
discount percentage, for the batching examples. -/
def mkDealProduct (c : Char) (d : ℚ) : Product :=
  { id := [c], name := [c], brand := [c], category := [], originalPrice := 100
    currentPrice := 50, discountPercentage := d, rating := 4, reviewCount := 10
    isInStock := true, url := [], specifications := exSpecsZeroProtein }

/-- Eight qualifying products with pairwise distinct discounts, already
in descending order. -/
def exProducts8 : List Product :=
  [mkDealProduct 'a' 80, mkDealProduct 'b' 70, mkDealProduct 'c' 60,
   mkDealProduct 'd' 50, mkDealProduct 'e' 40, mkDealProduct 'f' 30,
   mkDealProduct 'g' 20, mkDealProduct 'h' 10]

/-- A raw item valid in id, names and URL but with a negative `mrp`. -/
def exRawBadPrice : RawProduct :=
  { id := 1, nm := str "Biozyme", brName := str "MuscleBlaze", catName := str "Whey"
    urlFragment := str "/sv/x", mrp := some (-1), offer_pr := some 90, discount := some 150
    rating := some 9, nrvw := some 10, oos := false, ordrEnbld := true, grps := [] }

/-- A fully well-formed raw catalog item. -/
def exRawGood : RawProduct :=
  { id := 2, nm := str "Whey Gold", brName := str "ON", catName := str "Whey"
    urlFragment := str "/sv/y", mrp := some 100, offer_pr := some 80, discount := some 20
    rating := some 4, nrvw := some 5, oos := false, ordrEnbld := true, grps := [] }

/-- The product `exRawGood` transforms to. -/
def exProductGood : Product :=
  { id := str "2", name := str "Whey Gold", brand := str "ON", category := str "Whey"
    originalPrice := 100, currentPrice := 80, discountPercentage := 20, rating := 4
    reviewCount := 5, isInStock := true, url := str "https://www.healthkart.com/sv/y"
    specifications :=
      { weight := str "Unknown", servingSize := str "Unknown", proteinPerServing := str "0g"
        proteinPercentage := 0, servingsPerContainer := 0, flavor := str "Unknown"
        pricePerKg := 0 } }

/-- A use-case configuration with minimum discount 10. -/
def exUseCaseConfig : UseCaseConfig :=
  { productFilter :=
      { minDiscount := 10, inStockOnly := true, minReviews := 0, minRating := 1
        maxPrice := 10000 }
    maxProductsInAlert := 5 }

/-- A well-formed raw item whose discount 5 is below the minimum 10. -/
def exRawLowDiscount : RawProduct :=
  { id := 2, nm := str "Whey Gold", brName := str "ON", catName := str "Whey"
    urlFragment := str "/sv/y", mrp := some 100, offer_pr := some 80, discount := some 5
    rating := some 4, nrvw := some 5, oos := false, ordrEnbld := true, grps := [] }

/-- The product `exRawLowDiscount` transforms to. -/
def exProductLowDiscount : Product :=
  { exProductGood with discountPercentage := 5 }

/-! ### Theorems -/

/-- C1 (amended): `getPricePerGramProtein` returns 0 exactly when the
protein string is unparsable (`NaN`) or `servingsPerContainer` is 0;
when the protein string parses to a value that makes the total protein
nonzero it returns `currentPrice / (proteinPerServing ×
servingsPerContainer)`; but when the protein string parses to 0 and the
servings are nonzero, the division by zero is not guarded and a positive
current price yields `Infinity`. -/
theorem getPricePerGramProtein_total (p : Product) :
    ((jsParseFloat p.specifications.proteinPerServing = none ∨
        p.specifications.servingsPerContainer = 0) →
      p.getPricePerGramProtein = JsNum.num 0)
    ∧ (∀ protein, jsParseFloat p.specifications.proteinPerServing = some protein →
        p.specifications.servingsPerContainer ≠ 0 →
        protein * p.specifications.servingsPerContainer ≠ 0 →
        p.getPricePerGramProtein =
          JsNum.num (p.currentPrice / (protein * p.specifications.servingsPerContainer)))
    ∧ (∀ protein, jsParseFloat p.specifications.proteinPerServing = some protein →
        p.specifications.servingsPerContainer ≠ 0 →
        protein * p.specifications.servingsPerContainer = 0 →
        0 < p.currentPrice →
        p.getPricePerGramProtein = JsNum.inf) := by
  refine ⟨?_, ?_, ?_⟩
  · rintro (h | h)
    · simp [Product.getPricePerGramProtein, h]
    · cases hp : jsParseFloat p.specifications.proteinPerServing <;>
        simp [Product.getPricePerGramProtein, h, hp]
  · intro protein hp hs hne
    simp [Product.getPricePerGramProtein, hp, hs, jsDiv, hne]
  · intro protein hp hs hzero hpos
    simp [Product.getPricePerGramProtein, hp, hs, jsDiv, hzero, hpos]

/-- C1, counterexample to the claim as stated: for a product whose
protein string parses to 0 with 3 servings per container and a positive
current price, `getPricePerGramProtein` divides by zero and returns
`Infinity`, not 0. -/
theorem getPricePerGramProtein_c1_ctex :
    jsParseFloat exProductZeroProtein.specifications.proteinPerServing = some 0 ∧
    exProductZeroProtein.specifications.servingsPerContainer ≠ 0 ∧
    0 < exProductZeroProtein.currentPrice ∧
    exProductZeroProtein.getPricePerGramProtein = JsNum.inf ∧
    exProductZeroProtein.getPricePerGramProtein ≠ JsNum.num 0 := by
  refine ⟨?_, by norm_num [exProductZeroProtein, exSpecsZeroProtein],
    by norm_num [exProductZeroProtein], ?_, ?_⟩
  · simp +decide [exProductZeroProtein, exSpecsZeroProtein, jsParseFloat, str,
      parseDigits, parseExpPart]
  · simp +decide [Product.getPricePerGramProtein, exProductZeroProtein, exSpecsZeroProtein,
      jsParseFloat, str, parseDigits, parseExpPart, jsDiv]
  · simp +decide [Product.getPricePerGramProtein, exProductZeroProtein, exSpecsZeroProtein,
      jsParseFloat, str, parseDigits, parseExpPart, jsDiv]

/-- C1, witness: a product priced 100 with protein string `"25"` and 2
servings per container gets price-per-gram 100 / 50 = 2. -/
theorem getPricePerGramProtein_total_witness :
    exProductProtein25.getPricePerGramProtein = JsNum.num 2 := by
  have h := (getPricePerGramProtein_total exProductProtein25).2.1 25
    (by simp +decide [exProductProtein25, exSpecsZeroProtein, jsParseFloat, str,
      parseDigits, parseExpPart])
    (by norm_num [exProductProtein25, exSpecsZeroProtein])
    (by norm_num [exProductProtein25, exSpecsZeroProtein])
  rw [h]
  norm_num [exProductProtein25, exSpecsZeroProtein]

set_option maxHeartbeats 2000000 in
/-- C2 (amended): `meetsAlertCriteria` returns true iff the discount
threshold, the optional bounds, the brand containment and the stock flag
all hold — except that a `maxPrice`, `minRating` or `minReviews` given as
0 is falsy in JavaScript and is treated like an absent field, so its
check is skipped.  In particular an out-of-stock product never
qualifies. -/
theorem meetsAlertCriteria_iff (p : Product) (c : AlertCriteria) :
    p.meetsAlertCriteria c = true ↔
      (c.minDiscount ≤ p.discountPercentage
       ∧ (∀ m, c.maxPrice = some m → m ≠ 0 → p.currentPrice ≤ m)
       ∧ (∀ r, c.minRating = some r → r ≠ 0 → r ≤ p.rating)
       ∧ (∀ n, c.minReviews = some n → n ≠ 0 → n ≤ p.reviewCount)
       ∧ (∀ brands, c.preferredBrands = some brands → brands ≠ [] →
            ∃ brand ∈ brands, occursIn (lowerStr brand) (lowerStr p.brand) = true)
       ∧ p.isInStock = true) := by
  obtain ⟨md, mp, mr, mn, pb⟩ := c
  cases mp <;> cases mr <;> cases mn <;> rcases pb with _ | (_ | ⟨b, bs⟩) <;>
    simp [Product.meetsAlertCriteria, Product.hasSignificantDiscount,
      Product.hasGoodRating, Product.hasSufficientReviews, List.any_eq_true,
      not_lt, and_assoc] <;>
    tauto

/-- C2, counterexample to the claim as stated: with `maxPrice` present
and equal to 0 and a current price of 300, the code skips the price cap
(0 is falsy) and accepts the product, while the claimed equivalence
demands `currentPrice ≤ maxPrice` whenever `maxPrice` is present. -/
theorem meetsAlertCriteria_c2_ctex :
    ¬(exProductZeroProtein.meetsAlertCriteria exCriteriaMaxZero = true ↔
      (exCriteriaMaxZero.minDiscount ≤ exProductZeroProtein.discountPercentage
       ∧ (∀ m, exCriteriaMaxZero.maxPrice = some m →
            exProductZeroProtein.currentPrice ≤ m)
       ∧ (∀ r, exCriteriaMaxZero.minRating = some r → r ≤ exProductZeroProtein.rating)
       ∧ (∀ n, exCriteriaMaxZero.minReviews = some n →
            n ≤ exProductZeroProtein.reviewCount)
       ∧ (∀ brands, exCriteriaMaxZero.preferredBrands = some brands → brands ≠ [] →
            ∃ brand ∈ brands,
              occursIn (lowerStr brand) (lowerStr exProductZeroProtein.brand) = true)
       ∧ exProductZeroProtein.isInStock = true)) := by
  intro h
  have hL : exProductZeroProtein.meetsAlertCriteria exCriteriaMaxZero = true := by
    simp +decide [Product.meetsAlertCriteria, Product.hasSignificantDiscount,
      exCriteriaMaxZero, exProductZeroProtein, exSpecsZeroProtein]
  have hm := (h.mp hL).2.1 0 rfl
  norm_num [exProductZeroProtein] at hm

/-- C2, witness: a qualifying in-stock product with every optional
criteria field present and nonzero. -/
theorem meetsAlertCriteria_iff_witness :
    exProductZeroProtein.meetsAlertCriteria exCriteriaFull = true :=
  (meetsAlertCriteria_iff exProductZeroProtein exCriteriaFull).mpr
    (by simp +decide [exCriteriaFull, exProductZeroProtein, exSpecsZeroProtein,
      lowerStr, occursIn, matchesFront, str])

/-- Helper for C3: if every attempt from `a` through `a + r` fails with a
retryable error, the retry loop returns the error of the last attempt,
after `a + r + 1` invocations in total. -/
theorem retryLoop_exhaust {α : Type} (op : ℕ → Except JsError α) (e : JsError) :
    ∀ r a, (∀ i, a ≤ i → i ≤ a + r → ∃ ei, op i = .error ei ∧ isNonRetryableError ei = false) →
      op (a + r) = .error e →
      retryLoop op r a = (.error e, a + r + 1) := by
  intro r
  induction r with
  | zero =>
    intro a hf hl
    simp only [Nat.add_zero] at hl
    simp [retryLoop, hl]
  | succ r ih =>
    intro a hf hl
    obtain ⟨ea, hea, hret⟩ := hf a (le_refl a) (by omega)
    simp only [retryLoop, hea, hret, Bool.false_eq_true, if_false]
    have h2 := ih (a + 1) (fun i h1i h2i => hf i (by omega) (by omega))
      (by rw [show a + 1 + r = a + (r + 1) by omega]; exact hl)
    rw [h2]
    have : a + 1 + r = a + (r + 1) := by omega
    rw [this]

/-- C3 (amended): when every one of the `maxRetries + 1` attempts fails
with a retryable error, `withRetry` throws the last underlying error
itself, unchanged — it does not wrap it in a `RetryExhaustedError`
(that wrapper is thrown by `HealthKartApiClient.executeWithRetry` and
`TelegramService.sendWithRetry`, not by `withRetry`). -/
theorem withRetry_throws_last {α : Type} (op : ℕ → Except JsError α) (m : ℕ) (e : JsError)
    (hfail : ∀ i, i ≤ m → ∃ ei, op i = .error ei ∧ isNonRetryableError ei = false)
    (hlast : op m = .error e) :
    withRetry op m = (.error e, m + 1) := by
  have := retryLoop_exhaust op e m 0 (fun i h1 h2 => hfail i (by omega)) (by simpa using hlast)
  simpa [withRetry] using this

/-- C3, counterexample to the claim as stated: an operation that always
fails with a retryable timeout exhausts `withRetry` with `maxRetries =
2`; the error finally thrown is the plain `ApiTimeoutError` of the last
attempt, which is not a `RetryExhaustedError` and carries no attempt
count. -/
theorem withRetry_c3_ctex :
    withRetry (fun _ => (.error .apiTimeout : Except JsError Unit)) 2 =
      (.error .apiTimeout, 3) ∧
    JsError.isRetryExhausted .apiTimeout = false := by
  exact ⟨rfl, rfl⟩

/-- C3, witness: three retryable rate-limit failures under
`maxRetries = 2` end with the rate-limit error itself after 3
invocations. -/
theorem withRetry_throws_last_witness :
    withRetry (fun _ => (.error .rateLimit : Except JsError ℕ)) 2 = (.error .rateLimit, 3) :=
  withRetry_throws_last (fun _ => (.error .rateLimit : Except JsError ℕ)) 2 .rateLimit
    (fun _ _ => ⟨.rateLimit, rfl, rfl⟩) rfl

/-- C4: an operation that fails retryably on attempts 0 and 1 and
succeeds on attempt 2 makes `withRetry(op, maxRetries := 3)` return the
success value after exactly 3 invocations; and an operation that always
fails with a non-retryable error is invoked exactly once before its
error is rethrown. -/
theorem withRetry_attempt_counts {α : Type} (op opN : ℕ → Except JsError α) (v : α)
    (e0 e1 eN : JsError) (m : ℕ)
    (h0 : op 0 = .error e0) (h0r : isNonRetryableError e0 = false)
    (h1 : op 1 = .error e1) (h1r : isNonRetryableError e1 = false)
    (h2 : op 2 = .ok v)
    (hN : ∀ i, opN i = .error eN) (hNr : isNonRetryableError eN = true) :
    withRetry op 3 = (.ok v, 3) ∧ withRetry opN m = (.error eN, 1) := by
  constructor
  · show retryLoop op (2 + 1) 0 = (Except.ok v, 3)
    simp only [retryLoop, h0, h0r, Bool.false_eq_true, if_false]
    show retryLoop op (1 + 1) 1 = (Except.ok v, 3)
    simp only [retryLoop, h1, h1r, Bool.false_eq_true, if_false]
    show retryLoop op (0 + 1) 2 = (Except.ok v, 3)
    simp [retryLoop, h2]
  · cases m with
    | zero => simp [withRetry, retryLoop, hN 0]
    | succ k => simp [withRetry, retryLoop, hN 0, hNr]

/-- C4, witness: the concrete fail-twice-then-succeed operation returns
42 after 3 calls, and the concrete always-404 operation is called once
even with `maxRetries = 5`. -/
theorem withRetry_attempt_counts_witness :
    withRetry exOpSucceedThird 3 = (.ok 42, 3) ∧
    withRetry exOpForbidden 5 = (.error (.productFetch (some 404)), 1) :=
  withRetry_attempt_counts exOpSucceedThird exOpForbidden 42 .apiTimeout .apiTimeout
    (.productFetch (some 404)) 5 rfl (by decide) rfl (by decide) rfl
    (fun _ => rfl) (by decide)

/-- Helper for C5: with constant server-reported totals, as long as
every page up to the last one (`ceil(total/perPage)`) is nonempty, the
loop starting at `page` visits exactly the pages `page..last` and
concatenates their variants in order. -/
theorem fetchAllGo_full {α : Type} (server : ℕ → HKPage α) (T P : ℕ)
    (hT : ∀ p, (server p).total_variants = T) (hP : ∀ p, (server p).perPage = P) :
    ∀ fuel page acc reqs, 1 ≤ page → page ≤ ceilPages T P →
      ceilPages T P + 1 - page ≤ fuel →
      (∀ j, page ≤ j → j ≤ ceilPages T P → (server j).variants ≠ []) →
      fetchAllGo server fuel page acc reqs =
        (acc ++ concatPages server page (ceilPages T P + 1 - page),
         reqs + (ceilPages T P + 1 - page)) := by
  intro fuel
  induction fuel with
  | zero => intro page acc reqs h1 h2 h3 _; omega
  | succ fuel ih =>
    intro page acc reqs h1 h2 h3 hne
    have hv : (server page).variants ≠ [] := hne page le_rfl h2
    have hv2 : (server page).variants.isEmpty = false := by
      simp [List.isEmpty_iff, hv]
    simp only [fetchAllGo, hv2, Bool.false_eq_true, if_false, hT page, hP page]
    by_cases hc : page + 1 ≤ ceilPages T P
    · rw [if_pos hc]
      rw [ih (page + 1) (acc ++ (server page).variants) (reqs + 1) (by omega) hc (by omega)
        (fun j hj1 hj2 => hne j (by omega) hj2)]
      have hsplit : ceilPages T P + 1 - page = (ceilPages T P - page) + 1 := by omega
      have hsplit2 : ceilPages T P + 1 - (page + 1) = ceilPages T P - page := by omega
      rw [hsplit, hsplit2]
      simp only [Prod.mk.injEq]
      constructor
      · simp only [concatPages, List.range'_succ, List.flatMap_cons, List.append_assoc]
      · omega
    · rw [if_neg hc]
      have hpk : page = ceilPages T P := by omega
      have h1' : ceilPages T P + 1 - page = 1 := by omega
      rw [h1']
      simp only [Prod.mk.injEq]
      refine ⟨by simp [concatPages, List.range'_one], trivial⟩

/-- Helper for C5: if some page `j` within range is the first empty one,
the loop stops there, returning the pages before `j` after `j - page + 1`
requests. -/
theorem fetchAllGo_early {α : Type} (server : ℕ → HKPage α) (T P : ℕ)
    (hT : ∀ p, (server p).total_variants = T) (hP : ∀ p, (server p).perPage = P) :
    ∀ fuel page acc reqs j, 1 ≤ page → page ≤ j → j ≤ ceilPages T P →
      (server j).variants = [] →
      (∀ i, page ≤ i → i < j → (server i).variants ≠ []) →
      j + 1 - page ≤ fuel →
      fetchAllGo server fuel page acc reqs =
        (acc ++ concatPages server page (j - page), reqs + (j - page) + 1) := by
  intro fuel
  induction fuel with
  | zero => intro page acc reqs j h1 h2 h3 _ _ h6; omega
  | succ fuel ih =>
    intro page acc reqs j h1 h2 h3 hj hne h6
    by_cases hpj : page = j
    · subst hpj
      have hv2 : (server page).variants.isEmpty = true := by
        simp [List.isEmpty_iff, hj]
      simp [fetchAllGo, hv2, concatPages]
    · have hlt : page < j := by omega
      have hv : (server page).variants ≠ [] := hne page le_rfl hlt
      have hv2 : (server page).variants.isEmpty = false := by
        simp [List.isEmpty_iff, hv]
      simp only [fetchAllGo, hv2, Bool.false_eq_true, if_false, hT page, hP page]
      have hc : page + 1 ≤ ceilPages T P := by omega
      rw [if_pos hc]
      rw [ih (page + 1) (acc ++ (server page).variants) (reqs + 1) j (by omega) (by omega) h3
        hj (fun i hi1 hi2 => hne i (by omega) hi2) (by omega)]
      have hsplit : j - page = (j - (page + 1)) + 1 := by omega
      rw [hsplit]
      simp only [Prod.mk.injEq]
      constructor
      · simp only [concatPages, List.range'_succ, List.flatMap_cons, List.append_assoc]
      · omega

/-- C5: with a catalog reporting constant `total_variants` and
`perPage`, `fetchAllCategoryProducts` requests pages 1, 2, ... and stops
after `ceil(total/perPage)` pages, returning their concatenated variants
in order — or stops at the first page that returns zero items, returning
what was accumulated before it. -/
theorem fetchAllCategoryProducts_pagination {α : Type} (server : ℕ → HKPage α)
    (T P fuel : ℕ)
    (hT : ∀ p, (server p).total_variants = T) (hP : ∀ p, (server p).perPage = P)
    (hk : 1 ≤ ceilPages T P) (hfuel : ceilPages T P ≤ fuel) :
    ((∀ j, 1 ≤ j → j ≤ ceilPages T P → (server j).variants ≠ []) →
      fetchAllCategoryProducts server fuel =
        (concatPages server 1 (ceilPages T P), ceilPages T P))
    ∧ (∀ j, 1 ≤ j → j ≤ ceilPages T P → (server j).variants = [] →
        (∀ i, 1 ≤ i → i < j → (server i).variants ≠ []) →
        fetchAllCategoryProducts server fuel =
          (concatPages server 1 (j - 1), j)) := by
  constructor
  · intro hne
    have h := fetchAllGo_full server T P hT hP fuel 1 [] 0 le_rfl hk (by omega) hne
    simpa [fetchAllCategoryProducts] using h
  · intro j h1 h2 hj hne
    have h := fetchAllGo_early server T P hT hP fuel 1 [] 0 j le_rfl h1 h2 hj hne (by omega)
    have hj1 : j - 1 + 1 = j := by omega
    simp only [fetchAllCategoryProducts]
    rw [h]
    simp [hj1]

/-- C5, witness: for `total_count = 55`, `per_page = 24`, exactly 3 page
requests are issued and the 55 items are returned in order. -/
theorem fetchAllCategoryProducts_pagination_witness :
    fetchAllCategoryProducts server55 10 = (List.range' 1 55, 3) ∧
    (List.range' 1 55).length = 55 := by
  refine ⟨?_, by decide⟩
  have hT : ∀ p, (server55 p).total_variants = 55 := by
    intro p; unfold server55; split <;> [rfl; skip]; split <;> [rfl; skip]; split <;> rfl
  have hP : ∀ p, (server55 p).perPage = 24 := by
    intro p; unfold server55; split <;> [rfl; skip]; split <;> [rfl; skip]; split <;> rfl
  have h := (fetchAllCategoryProducts_pagination server55 55 24 10 hT hP (by decide)
      (by decide)).1 ?hne
  case hne =>
    intro j h1 h2
    have h3 : j ≤ 3 := by simpa [ceilPages] using h2
    interval_cases j <;> decide
  rw [h]
  decide

/-- Helper for C6: starting from `count ≤ 5`, the message loop appends
the formatted blocks of the first `6 - count` remaining products. -/
theorem alertLoop_eq_take (fmt : Product → Str) :
    ∀ (l : List Product) (count : ℕ) (msg : Str), count ≤ 5 →
      alertLoop fmt l count msg = msg ++ (l.take (6 - count)).flatMap fmt := by
  intro l
  induction l with
  | nil => intro count msg h; simp [alertLoop]
  | cons p ps ih =>
    intro count msg h
    simp only [alertLoop]
    by_cases hc : 5 < count + 1
    · rw [if_pos hc]
      have h5 : count = 5 := by omega
      subst h5
      simp
    · rw [if_neg hc]
      rw [ih (count + 1) (msg ++ fmt p) (by omega)]
      have hs : 6 - count = (6 - (count + 1)) + 1 := by omega
      rw [hs]
      simp [List.append_assoc]

/-- C6 (amended): `sendDealAlerts` performs exactly one `sendMessage`
delivery, and the delivered message is the concatenation of the
individually formatted blocks of the top SIX products by descending
discount (the loop breaks only after the block that takes the counter
past 5 has been concatenated), not the top five. -/
theorem sendDealAlerts_top6 (fmt : Product → Str) (products : List Product) :
    (sendDealAlerts fmt products).sendCalls = 1 ∧
    (sendDealAlerts fmt products).message =
      ((sortByDiscountDesc products).take 6).flatMap fmt := by
  refine ⟨rfl, ?_⟩
  show alertLoop fmt (sortByDiscountDesc products) 0 [] = _
  rw [alertLoop_eq_take fmt _ 0 [] (by omega)]
  simp

/-- C6, counterexample to the claim as stated: with 8 qualifying
products of distinct discounts, the single delivered message contains
six blocks, so it differs from the concatenation of the top five. -/
theorem sendDealAlerts_c6_ctex :
    exProducts8.length = 8 ∧
    (sendDealAlerts Product.id exProducts8).sendCalls = 1 ∧
    (sendDealAlerts Product.id exProducts8).message ≠
      ((sortByDiscountDesc exProducts8).take 5).flatMap Product.id := by
  refine ⟨rfl, rfl, ?_⟩
  decide

/-- C9: `sendDealAlerts` sorts the caller-supplied array in place
(`products.sort` mutates and returns the same array): after the call the
argument array is a permutation of what was passed, ordered by
descending `discountPercentage`. -/
theorem sendDealAlerts_sorts_in_place (fmt : Product → Str) (products : List Product) :
    (sendDealAlerts fmt products).productsAfter.Perm products ∧
    List.Sorted (fun a b : Product => b.discountPercentage ≤ a.discountPercentage)
      (sendDealAlerts fmt products).productsAfter := by
  constructor
  · exact List.perm_insertionSort _ products
  · letI : IsTotal Product (fun a b : Product => b.discountPercentage ≤ a.discountPercentage) :=
      ⟨fun a b => le_total _ _⟩
    letI : IsTrans Product (fun a b : Product => b.discountPercentage ≤ a.discountPercentage) :=
      ⟨fun a b c hab hbc => le_trans hbc hab⟩
    exact List.sorted_insertionSort _ products

/-- Decimal digit characters are not whitespace. -/
theorem digitChar_not_ws : ∀ d, d < 10 → (Char.ofNat (48 + d)).isWhitespace = false := by
  decide

/-- Every character produced by the digit writer is a digit of the
accumulator or a decimal digit, hence never whitespace. -/
theorem natDigitsGo_chars :
    ∀ fuel n acc, (∀ c ∈ acc, c.isWhitespace = false) →
      ∀ c ∈ natDigitsGo fuel n acc, c.isWhitespace = false := by
  intro fuel
  induction fuel with
  | zero =>
    intro n acc hacc c hc
    cases n <;> exact hacc c hc
  | succ fuel ih =>
    intro n acc hacc c hc
    cases n with
    | zero => exact hacc c hc
    | succ m =>
      refine ih ((m + 1) / 10) (Char.ofNat (48 + (m + 1) % 10) :: acc) ?_ c hc
      intro d hd
      rcases List.mem_cons.mp hd with h | h
      · subst h; exact digitChar_not_ws _ (Nat.mod_lt _ (by omega))
      · exact hacc d h

/-- The digit writer never shrinks the accumulator. -/
theorem natDigitsGo_len_ge :
    ∀ fuel n acc, acc.length ≤ (natDigitsGo fuel n acc).length := by
  intro fuel
  induction fuel with
  | zero => intro n acc; cases n <;> simp [natDigitsGo]
  | succ fuel ih =>
    intro n acc
    cases n with
    | zero => simp [natDigitsGo]
    | succ m =>
      calc acc.length ≤ (Char.ofNat (48 + (m + 1) % 10) :: acc).length := by simp
        _ ≤ _ := ih ((m + 1) / 10) _

/-- `String(n)` for a natural number is never blank. -/
theorem strBlank_natRepr (n : ℕ) : strBlank (natRepr n) = false := by
  by_cases h : n = 0
  · subst h; decide
  · have hne : natRepr n = natDigitsGo n n [] := by simp [natRepr, h]
    rw [hne]
    have hlen : 0 < (natDigitsGo n n []).length := by
      rcases Nat.exists_eq_succ_of_ne_zero h with ⟨m, rfl⟩
      calc 0 < (Char.ofNat (48 + (m + 1) % 10) :: []).length := by simp
        _ ≤ _ := natDigitsGo_len_ge m ((m + 1) / 10) _
    obtain ⟨c, hc⟩ := List.exists_mem_of_length_pos hlen
    have hcw := natDigitsGo_chars n n [] (by simp) c hc
    simp [strBlank, List.all_eq_true]
    exact ⟨c, hc, by simp [hcw]⟩

/-- `String(i)` for an integer is never blank. -/
theorem strBlank_intRepr (i : ℤ) : strBlank (intRepr i) = false := by
  by_cases h : i < 0
  · simp only [intRepr, if_pos h]
    have := strBlank_natRepr i.natAbs
    simp only [strBlank, List.all_cons] at *
    simp [this]
  · simp only [intRepr, if_neg h]
    exact strBlank_natRepr i.natAbs

/-- Dropping a prefix of `p`-characters does not change whether all
characters satisfy `p`. -/
theorem dropWhile_all_eq (p : Char → Bool) :
    ∀ s : Str, (s.dropWhile p).all p = s.all p := by
  intro s
  induction s with
  | nil => rfl
  | cons c cs ih =>
    by_cases h : p c
    · simp [List.dropWhile_cons, h, ih]
    · simp [List.dropWhile_cons, h]

/-- A string is trim-blank exactly when it is blank: `trim` only removes
whitespace. -/
theorem strBlank_jsTrim (s : Str) : strBlank (jsTrim s) = s.all Char.isWhitespace := by
  simp only [jsTrim, strBlank]
  rw [List.all_reverse, dropWhile_all_eq, List.all_reverse, dropWhile_all_eq]

/-- `validatePercentage` always lands in `[0, 100]`. -/
theorem validatePercentage_bounds (x : Option ℚ) :
    0 ≤ validatePercentage x ∧ validatePercentage x ≤ 100 := by
  cases x with
  | none => simp [validatePercentage]
  | some q =>
    refine ⟨le_max_left 0 _, max_le (by norm_num) (min_le_left 100 q)⟩

/-- `validateRating` always lands in `[0, 5]`. -/
theorem validateRating_bounds (x : Option ℚ) :
    0 ≤ validateRating x ∧ validateRating x ≤ 5 := by
  cases x with
  | none => simp [validateRating]
  | some q =>
    refine ⟨le_max_left 0 _, max_le (by norm_num) (min_le_left 5 q)⟩

/-- `validateCount` is never negative. -/
theorem validateCount_nonneg (x : Option ℚ) : 0 ≤ validateCount x := by
  cases x with
  | none => simp [validateCount]
  | some q =>
    by_cases h : q < 0
    · simp [validateCount, h]
    · simp only [validateCount, if_neg h]
      exact_mod_cast Int.floor_nonneg.mpr (not_lt.mp h)

/-- Rounding a nonnegative price to two decimals keeps it nonnegative. -/
theorem roundPrice_nonneg (q : ℚ) (h : 0 ≤ q) : 0 ≤ ((⌊q * 100 + 1 / 2⌋ : ℚ) / 100) := by
  apply div_nonneg _ (by norm_num)
  exact_mod_cast Int.floor_nonneg.mpr (by positivity)

/-- C8 (amended): for every raw catalog item with positive id, names and
URL fragment that are not blank, and `mrp` and `offer_pr` that are
numbers (not `NaN`) and nonnegative, `transformToProduct` succeeds and
the resulting discount lies in `[0, 100]` and rating in `[0, 5]` even
when the raw values are out of range.  (The extra price hypotheses are
forced by the counterexample: `validatePrice` throws on a negative or
`NaN` price even when id, name, brand and URL are fine.) -/
theorem transformToProduct_clamps (raw : RawProduct) (m o : ℚ)
    (hid : 0 < raw.id) (hnm : strBlank raw.nm = false) (hbr : strBlank raw.brName = false)
    (hurl : strBlank raw.urlFragment = false)
    (hm : raw.mrp = some m) (hm0 : 0 ≤ m) (ho : raw.offer_pr = some o) (ho0 : 0 ≤ o) :
    ∃ p, transformToProduct raw = .ok p ∧
      0 ≤ p.discountPercentage ∧ p.discountPercentage ≤ 100 ∧
      0 ≤ p.rating ∧ p.rating ≤ 5 := by
  have hidn : ¬raw.id ≤ 0 := not_le.mpr hid
  have h1 : validatePrice raw.mrp "originalPrice" = .ok ((⌊m * 100 + 1 / 2⌋ : ℚ) / 100) := by
    simp [validatePrice, hm, not_lt.mpr hm0]
  have h2 : validatePrice raw.offer_pr "currentPrice" = .ok ((⌊o * 100 + 1 / 2⌋ : ℚ) / 100) := by
    simp [validatePrice, ho, not_lt.mpr ho0]
  simp only [transformToProduct, transformToProductInterface, hidn, if_false, hnm,
    Bool.false_eq_true, hbr, hurl, h1, h2]
  simp only [Except.bind, Product.create, sanitizeString, strBlank_jsTrim]
  rw [show (strBlank (intRepr raw.id)) = false from strBlank_intRepr raw.id]
  simp only [strBlank] at hnm hbr
  simp only [hnm, hbr, Bool.false_eq_true, if_false]
  rw [if_neg (not_lt.mpr (roundPrice_nonneg m hm0)), if_neg (not_lt.mpr (roundPrice_nonneg o ho0))]
  have hd := validatePercentage_bounds raw.discount
  have hr := validateRating_bounds raw.rating
  have hc := validateCount_nonneg raw.nrvw
  rw [if_neg (by push_neg; exact ⟨hd.1, hd.2⟩), if_neg (by push_neg; exact ⟨hr.1, hr.2⟩),
    if_neg (not_lt.mpr hc)]
  exact ⟨_, rfl, hd.1, hd.2, hr.1, hr.2⟩

/-- C8, counterexample to the claim as stated: a raw item with id 1 and
non-blank name, brand and URL fragment, but `mrp = -1`, makes
`transformToProduct` throw `Invalid originalPrice` instead of
succeeding. -/
theorem transformToProduct_c8_ctex :
    0 < exRawBadPrice.id ∧ strBlank exRawBadPrice.nm = false ∧
    strBlank exRawBadPrice.brName = false ∧ strBlank exRawBadPrice.urlFragment = false ∧
    transformToProduct exRawBadPrice = .error "Invalid originalPrice" := by
  refine ⟨by decide, by decide, by decide, by decide, ?_⟩
  rfl

/-- C8, witness: a well-formed raw item (with raw discount 150 and
rating 9 the clamps would apply; here 20 and 4) transforms
successfully. -/
theorem transformToProduct_clamps_witness :
    (transformToProduct exRawGood).toOption.isSome = true := by
  obtain ⟨p, hp, -, -, -, -⟩ := transformToProduct_clamps exRawGood 100 80 (by decide)
    (by decide) (by decide) (by decide) rfl (by norm_num) rfl (by norm_num)
  rw [hp]
  rfl

/-- `Product.create` returns its input unchanged when it succeeds. -/
theorem create_ok_eq (d p : Product) (h : Product.create d = .ok p) : p = d := by
  unfold Product.create at h
  split_ifs at h
  all_goals first
    | exact Except.noConfusion h
    | (injection h with h2; exact h2.symm)

/-- Helper for C10: the transform writes
`isInStock := !raw.oos && raw.ordrEnbld`. -/
theorem transformToProductInterface_isInStock (raw : RawProduct) (p : Product)
    (h : transformToProductInterface raw = .ok p) :
    p.isInStock = (!raw.oos && raw.ordrEnbld) := by
  unfold transformToProductInterface at h
  split_ifs at h
  cases hm : validatePrice raw.mrp "originalPrice" with
  | error e => rw [hm] at h; exact Except.noConfusion h
  | ok op =>
    rw [hm] at h
    cases ho : validatePrice raw.offer_pr "currentPrice" with
    | error e => rw [ho] at h; exact Except.noConfusion h
    | ok cp =>
      rw [ho] at h
      injection h with h2
      rw [← h2]

/-- C10: every raw item accepted by the transform yields a product with
`isInStock = (!oos && ordrEnbld)`: in stock exactly when the raw item is
not out of stock AND ordering is enabled, so an order-disabled item maps
to `isInStock = false` even when it is in stock. -/
theorem transformToProduct_isInStock (raw : RawProduct) (p : Product)
    (h : transformToProduct raw = .ok p) :
    p.isInStock = (!raw.oos && raw.ordrEnbld) := by
  unfold transformToProduct at h
  cases hi : transformToProductInterface raw with
  | error e => rw [hi] at h; exact Except.noConfusion h
  | ok q =>
    rw [hi] at h
    simp only [Except.bind] at h
    rw [create_ok_eq q p h]
    exact transformToProductInterface_isInStock raw q hi

/-- The concrete good raw item transforms to the concrete expected
product. -/
theorem transformToProduct_exRawGood :
    transformToProduct exRawGood = .ok exProductGood := by
  have h1 : validatePrice (some (100 : ℚ)) "originalPrice" = .ok 100 := by
    simp only [validatePrice]
    rw [if_neg (by norm_num)]
    norm_num
  have h2 : validatePrice (some (80 : ℚ)) "currentPrice" = .ok 80 := by
    simp only [validatePrice]
    rw [if_neg (by norm_num)]
    norm_num
  show (transformToProductInterface exRawGood).bind Product.create = .ok exProductGood
  have hi : transformToProductInterface exRawGood = .ok exProductGood := by
    simp only [transformToProductInterface, exRawGood]
    rw [if_neg (by decide), if_neg (by decide), if_neg (by decide), if_neg (by decide), h1, h2]
    simp +decide [Except.ok.injEq, exProductGood, Product.mk.injEq, intRepr, natRepr,
      natDigitsGo, sanitizeString, jsTrim, str, urlBase, extractSpecifications,
      postProcessSpecifications, ProductSpecifications.mk.injEq,
      validatePercentage, validateRating, validateCount]
  rw [hi]
  show Product.create exProductGood = .ok exProductGood
  simp only [Product.create, exProductGood]
  rw [if_neg (by decide), if_neg (by decide), if_neg (by decide)]
  rw [if_neg (by norm_num), if_neg (by norm_num), if_neg (by norm_num), if_neg (by norm_num),
    if_neg (by norm_num)]

/-- C10, witness: the good raw item has `oos = false` and
`ordrEnbld = true`, and its transformed product is in stock. -/
theorem transformToProduct_isInStock_witness :
    exProductGood.isInStock = (!exRawGood.oos && exRawGood.ordrEnbld) :=
  transformToProduct_isInStock exRawGood exProductGood transformToProduct_exRawGood

/-- The concrete low-discount raw item transforms to the concrete
expected product. -/
theorem transformToProduct_exRawLow :
    transformToProduct exRawLowDiscount = .ok exProductLowDiscount := by
  have h1 : validatePrice (some (100 : ℚ)) "originalPrice" = .ok 100 := by
    simp only [validatePrice]
    rw [if_neg (by norm_num)]
    norm_num
  have h2 : validatePrice (some (80 : ℚ)) "currentPrice" = .ok 80 := by
    simp only [validatePrice]
    rw [if_neg (by norm_num)]
    norm_num
  show (transformToProductInterface exRawLowDiscount).bind Product.create =
    .ok exProductLowDiscount
  have hi : transformToProductInterface exRawLowDiscount = .ok exProductLowDiscount := by
    simp only [transformToProductInterface, exRawLowDiscount]
    rw [if_neg (by decide), if_neg (by decide), if_neg (by decide), if_neg (by decide), h1, h2]
    simp +decide [Except.ok.injEq, exProductLowDiscount, exProductGood, Product.mk.injEq,
      intRepr, natRepr, natDigitsGo, sanitizeString, jsTrim, str, urlBase,
      extractSpecifications, postProcessSpecifications, ProductSpecifications.mk.injEq,
      validatePercentage, validateRating, validateCount]
  rw [hi]
  show Product.create exProductLowDiscount = .ok exProductLowDiscount
  simp only [Product.create, exProductLowDiscount, exProductGood]
  rw [if_neg (by decide), if_neg (by decide), if_neg (by decide)]
  rw [if_neg (by norm_num), if_neg (by norm_num), if_neg (by norm_num), if_neg (by norm_num),
    if_neg (by norm_num)]

/-- C7: when the category fetch returns items but zero products pass the
qualifying filter, `execute` is not an error: it returns
`qualifyingDeals = 0` and `telegramSent = false`, and the Telegram
send-message operation is called zero times. -/
theorem executeModel_zero_deals (config : UseCaseConfig) (fetched : List RawProduct)
    (sendOutcome : Except JsError Bool)
    (hne : fetched ≠ [])
    (hq : filterQualifyingDeals (transformToProducts fetched) config.productFilter = []) :
    executeModel config fetched sendOutcome =
      .ok ({ totalProductsFetched := fetched.length, qualifyingDeals := 0,
             telegramSent := false, deals := [] }, 0) := by
  simp [executeModel, List.isEmpty_iff, hne, hq, createProductSummaries]

/-- C7, witness: one fetched item whose discount 5 is below the
configured minimum 10 yields a successful run with zero deals, no send
call and `telegramSent = false`. -/
theorem executeModel_zero_deals_witness :
    executeModel exUseCaseConfig [exRawLowDiscount] (.ok true) =
      .ok ({ totalProductsFetched := 1, qualifyingDeals := 0,
             telegramSent := false, deals := [] }, 0) := by
  have ht : transformToProducts [exRawLowDiscount] = [exProductLowDiscount] := by
    simp [transformToProducts, transformToProduct_exRawLow, Except.toOption]
  have h := executeModel_zero_deals exUseCaseConfig [exRawLowDiscount] (.ok true)
    (by simp) (by rw [ht]; decide)
  simpa using h

end MB
